import Mathlib

/-!
Verification of the timeline client in `app/get_tweets_api.py`
(class `GetTweetsAPI`).

The Python code is shallowly embedded: JSON values are an inductive type,
Python subscripting / `.keys()` / `.splitlines()` / `int()` / `str()` /
`list.sort(reverse=True)` / slicing are modelled as executable Lean
functions, and the distinction between the exception classes matters
because the source catches `KeyError` (and the provider's
`FailedToGetTwitterValueException`) but lets `ValueError`, `TypeError`
and `AttributeError` escape.
-/

/-- A JSON value, the result of `response.json()` in the source. -/
inductive Json where
  | null : Json
  | bool : Bool → Json
  | num : Int → Json
  | str : String → Json
  | arr : List Json → Json
  | obj : List (String × Json) → Json

/-- The Python exceptions the embedded code can raise.  `keyError` is the
only one the `try`/`except` blocks of `get_tweets` and `__get_user_id`
catch. -/
inductive PyExc where
  | keyError : String → PyExc
  | typeError : PyExc
  | valueError : PyExc
  | attributeError : PyExc
deriving DecidableEq

/-- The domain-level errors of the source: `FailedToGetTweetsException`
carrying its message or wrapped cause, or a raw Python exception that
escaped the handlers. -/
inductive ApiErr where
  | failedToGetTweets : String → ApiErr
  | uncaught : PyExc → ApiErr
deriving DecidableEq

/-- True exactly on the domain error `FailedToGetTweetsException`
(the error kind the spec calls DataShapeMismatch when it carries the
no-cause messages of the two `except KeyError` handlers). -/
def ApiErr.domain : ApiErr → Bool
  | .failedToGetTweets _ => true
  | .uncaught _ => false

/-- Whether a result is a domain error (`FailedToGetTweetsException`). -/
def resultDomainError {α : Type} : Except ApiErr α → Bool
  | .error e => e.domain
  | .ok _ => false

/-- Python subscripting `j[k]`: on a dict, look the key up (raising
`KeyError` if absent); on any non-dict value raise `TypeError`. -/
def Json.getItem : Json → String → Except PyExc Json
  | .obj fields, k =>
    match fields.find? (fun kv => kv.1 == k) with
    | some kv => .ok kv.2
    | none => .error (.keyError k)
  | _, _ => .error .typeError

/-- Python `j.keys()`: the keys of a dict in insertion order;
`AttributeError` on any non-dict value. -/
def Json.keysList : Json → Except PyExc (List String)
  | .obj fields => .ok (fields.map Prod.fst)
  | _ => .error .attributeError

/-- Python `v.splitlines()` requires a string; any other value raises
`AttributeError`. -/
def Json.asString : Json → Except PyExc String
  | .str s => .ok s
  | _ => .error .attributeError

/-- Total dict lookup, used to state path presence and absence
independently of the exception mechanics: `some v` iff `j` is an object
with key `k` bound to `v`. -/
def Json.objGet? : Json → String → Option Json
  | .obj fields, k => (fields.find? (fun kv => kv.1 == k)).map Prod.snd
  | _, _ => none

/-- The characters Python `str.splitlines()` splits on. -/
def isLineBreak (c : Char) : Bool :=
  c = '\n' || c = '\r' || c = '\x0b' || c = '\x0c' || c = '\x1c' ||
  c = '\x1d' || c = '\x1e' || c = '\x85' || c = '\u2028' || c = '\u2029'

/-- Worker for `splitlines`: `acc` holds the current segment reversed.
A `"\r\n"` pair counts as a single break; a trailing break produces no
empty trailing segment, and the empty string yields no segments. -/
def splitlinesAux : List Char → List Char → List (List Char)
  | [], acc => if acc.isEmpty then [] else [acc.reverse]
  | c :: rest, acc =>
    if isLineBreak c then
      match rest with
      | [] => [acc.reverse]
      | d :: rest2 =>
        if c = '\r' && d = '\n' then acc.reverse :: splitlinesAux rest2 []
        else acc.reverse :: splitlinesAux (d :: rest2) []
    else splitlinesAux rest (c :: acc)

/-- Python `s.splitlines()`, as lists of characters. -/
def splitlines (s : String) : List (List Char) :=
  splitlinesAux s.toList []

/-- Python `' '.join(segments)`. -/
def joinSpace : List (List Char) → List Char
  | [] => []
  | [x] => x
  | x :: y :: xs => x ++ ' ' :: joinSpace (y :: xs)

/-- `' '.join(s.splitlines())` — the normalization applied to each
tweet's `full_text` on line 140 of the source. -/
def normalizeText (s : String) : String :=
  String.mk (joinSpace (splitlines s))

/-- The whitespace characters Python `int()` strips from a string. -/
def pyWs (c : Char) : Bool :=
  c = ' ' || c = '\t' || c = '\n' || c = '\r' || c = '\x0b' || c = '\x0c'

/-- Strip leading and trailing `int()` whitespace. -/
def pyStrip (l : List Char) : List Char :=
  ((l.dropWhile pyWs).reverse.dropWhile pyWs).reverse

/-- Digit tail of Python `int()`: after an initial digit, further digits
may be separated by single underscores; anything else fails. -/
def pyIntGo : Bool → List Char → Nat → Option Nat
  | afterUnd, [], acc => if afterUnd then none else some acc
  | afterUnd, c :: rest, acc =>
    if c.isDigit then pyIntGo false rest (acc * 10 + (c.toNat - 48))
    else if afterUnd then none
    else if c = '_' then pyIntGo true rest acc
    else none

/-- A nonempty digit run (with optional internal underscores), as in
Python `int()` after sign and whitespace handling. -/
def pyIntDigits : List Char → Option Nat
  | [] => none
  | c :: rest => if c.isDigit then pyIntGo false rest (c.toNat - 48) else none

/-- Python `int(s)`: strip whitespace, optional sign, decimal digits.
`none` models the `ValueError` that `int()` raises otherwise.
(CPython additionally accepts non-ASCII decimal digits and Unicode
whitespace; those exotic inputs are not modelled.) -/
def pyInt? (s : String) : Option Int :=
  match pyStrip s.toList with
  | [] => none
  | c :: rest =>
    if c = '+' then (pyIntDigits rest).map (fun n => Int.ofNat n)
    else if c = '-' then (pyIntDigits rest).map (fun n => -(Int.ofNat n))
    else (pyIntDigits (c :: rest)).map (fun n => Int.ofNat n)

/-- The character for a decimal digit `d < 10`. -/
def digitChar (d : Nat) : Char := Char.ofNat (48 + d)

/-- Fueled decimal printer, most significant digit first. -/
def natDigitsGo : Nat → Nat → List Char → List Char
  | 0, _, acc => acc
  | fuel + 1, n, acc =>
    if n < 10 then digitChar n :: acc
    else natDigitsGo fuel (n / 10) (digitChar (n % 10) :: acc)

/-- The canonical decimal representation of a natural number. -/
def natRepr (n : Nat) : String := String.mk (natDigitsGo (n + 1) n [])

/-- Python `str(i)` for an integer. -/
def pyStr : Int → String
  | .ofNat n => natRepr n
  | .negSucc n => String.mk ('-' :: (natRepr (n + 1)).toList)

/-- Insert into a descending list, as one step of
`tweet_ids.sort(reverse=True)`. -/
def insertDesc (x : Int) : List Int → List Int
  | [] => [x]
  | y :: ys => if y ≤ x then x :: y :: ys else y :: insertDesc x ys

/-- `tweet_ids.sort(reverse=True)`: sort integers in descending order. -/
def sortDesc : List Int → List Int
  | [] => []
  | x :: xs => insertDesc x (sortDesc xs)

/-- Python slicing `l[:count]` for a possibly negative `count`. -/
def pySlice {α : Type} (count : Int) (l : List α) : List α :=
  if 0 ≤ count then l.take count.toNat
  else l.take (l.length - (-count).toNat)

/-- `int(x)` lifted into the exception monad: a key that does not parse
raises `ValueError` (line 137 of the source, outside any handler for
that exception class). -/
def intOrValueError (k : String) : Except PyExc Int :=
  match pyInt? k with
  | some i => .ok i
  | none => .error .valueError

/-- Left-to-right effectful map, as a Python list comprehension:
the first exception aborts the whole list. -/
def exceptMapM {α β : Type} (g : α → Except PyExc β) : List α → Except PyExc (List β)
  | [] => .ok []
  | x :: xs =>
    match g x with
    | .error e => .error e
    | .ok y =>
      match exceptMapM g xs with
      | .error e => .error e
      | .ok ys => .ok (y :: ys)

/-- `timeline_json['globalObjects']['tweets']` (line 136). -/
def tweetsLookup (timeline_json : Json) : Except PyExc Json :=
  match timeline_json.getItem "globalObjects" with
  | .error e => .error e
  | .ok go => go.getItem "tweets"

/-- `tweets_json[str(x)]['full_text']` normalized by
`' '.join(....splitlines())` — the body of the comprehension on
line 140, for one selected id `x`. -/
def fetchOne (tweets_json : Json) (x : Int) : Except PyExc String :=
  match tweets_json.getItem (pyStr x) with
  | .error e => .error e
  | .ok tj =>
    match tj.getItem "full_text" with
    | .error e => .error e
    | .ok ft =>
      match ft.asString with
      | .error e => .error e
      | .ok s => .ok (normalizeText s)

/-- Lines 136–141 of the source: locate the tweets object, parse all of
its keys as integers, sort them descending, slice to `count`, and
normalize each selected tweet's `full_text`.  Any raised exception is
returned in the error channel, still unwrapped. -/
def tweetsPipeline (timeline_json : Json) (count : Int) : Except PyExc (List String) :=
  match tweetsLookup timeline_json with
  | .error e => .error e
  | .ok tweets_json =>
    match tweets_json.keysList with
    | .error e => .error e
    | .ok keys =>
      match exceptMapM intOrValueError keys with
      | .error e => .error e
      | .ok tweet_ids =>
        exceptMapM (fetchOne tweets_json) (pySlice count (sortDesc tweet_ids))

/-- `GetTweetsAPI.get_tweets` from the parsed timeline response on:
the `try` block of lines 135–143 catches `KeyError` only, turning it
into `FailedToGetTweetsException('Failed to get tweets')`; every other
exception escapes unwrapped. -/
def get_tweets (timeline_json : Json) (count : Int) : Except ApiErr (List String) :=
  match tweetsPipeline timeline_json count with
  | .ok ts => .ok ts
  | .error (.keyError _) => .error (.failedToGetTweets "Failed to get tweets")
  | .error e => .error (.uncaught e)

/-- `graph_ql_json['data']['user']['rest_id']` (line 93). -/
def restIdLookup (graph_ql_json : Json) : Except PyExc Json :=
  match graph_ql_json.getItem "data" with
  | .error e => .error e
  | .ok d =>
    match d.getItem "user" with
    | .error e => .error e
    | .ok u => u.getItem "rest_id"

/-- `GetTweetsAPI.__get_user_id` from the parsed lookup response on:
lines 92–98 catch `KeyError` only, raising the dedicated
`FailedToGetTweetsException` message; other exceptions escape. -/
def get_user_id (graph_ql_json : Json) : Except ApiErr Json :=
  match restIdLookup graph_ql_json with
  | .ok v => .ok v
  | .error (.keyError _) =>
    .error (.failedToGetTweets "Failed to get the user id, could not find user rest_id in GraphQL response")
  | .error e => .error (.uncaught e)

/-- Modelled from the spec: the Token Provider's failure
(`FailedToGetTwitterValueException` lives in `app/exceptions.py`, which
is not part of the sources here) — a "value unavailable" error carrying
a human-readable cause. -/
inductive TwErr where
  | failedToGetTwitterValue : String → TwErr

/-- Modelled from the spec: the Token Provider (`GetTwitterValues` in
`app/get_twitter_values.py`, not part of the sources here) as its
interface — three independent accessors each returning an opaque string
or failing. -/
structure TwitterValues where
  guest_token : Except TwErr String
  bearer_token : Except TwErr String
  query_id : Except TwErr String

/-- `GetTweetsAPI.__get_twitter_values` (lines 37–56): call the three
accessors in order; a `FailedToGetTwitterValueException` from any of
them is re-raised as `FailedToGetTweetsException(e)`. -/
def get_twitter_values (tv : TwitterValues) : Except ApiErr (String × String × String) :=
  match tv.guest_token with
  | .error (.failedToGetTwitterValue m) => .error (.failedToGetTweets m)
  | .ok gt =>
    match tv.bearer_token with
    | .error (.failedToGetTwitterValue m) => .error (.failedToGetTweets m)
    | .ok bearer_token =>
      match tv.query_id with
      | .error (.failedToGetTwitterValue m) => .error (.failedToGetTweets m)
      | .ok query_id => .ok (gt, bearer_token, query_id)

/-- The state of a constructed `GetTweetsAPI` instance: the fields
assigned in `__init__` (the `requests` session handle carries no data
relevant to the claims and is omitted). -/
structure Client where
  user : String
  gt : String
  bearer_token : String
  query_id : String
  headers : List (String × String)
  user_id : Json

/-- `GetTweetsAPI.__init__` (lines 26–35): fetch the three token values,
assemble the headers, resolve the user id.  The network call of
`__get_user_id` is abstracted by `lookup_response`: `.error msg` models
the request (or `r.json()`) raising with message `msg`, `.ok j` models a
response parsed as `j`.  A raised exception means no instance is
produced. -/
def initClient (user : String) (tv : TwitterValues)
    (lookup_response : Except String Json) : Except ApiErr Client :=
  match get_twitter_values tv with
  | .error e => .error e
  | .ok (gt, bearer_token, query_id) =>
    let headers := [("x-guest-token", gt),
                    ("authorization", "Bearer " ++ bearer_token),
                    ("content-type", "application/json")]
    match lookup_response with
    | .error e =>
      .error (.failedToGetTweets ("Failed to get the user id, request excepted with: " ++ e))
    | .ok graph_ql_json =>
      match get_user_id graph_ql_json with
      | .error e => .error e
      | .ok user_id =>
        .ok { user := user, gt := gt, bearer_token := bearer_token,
              query_id := query_id, headers := headers, user_id := user_id }

/-- `GetTweetsAPI.get_tweets` as a method: it reads `self` but assigns
only local variables, so the instance is returned unchanged alongside
the result.  `timeline_response` abstracts the network call of lines
128–129: `.error msg` models the request raising with message `msg`. -/
def fetchTweets (self : Client) (timeline_response : Except String Json)
    (count : Int) : Client × Except ApiErr (List String) :=
  match timeline_response with
  | .error e =>
    (self, .error (.failedToGetTweets ("Failed to get tweets, request excepted with: " ++ e)))
  | .ok timeline_json => (self, get_tweets timeline_json count)

/-- The `globalObjects.tweets` path of a timeline response, as plain
nested-object lookup (for stating presence and absence). -/
def tweetsPath (j : Json) : Option Json :=
  match j.objGet? "globalObjects" with
  | some go => go.objGet? "tweets"
  | none => none

/-- The `data.user.rest_id` path of a lookup response, as plain
nested-object lookup (for stating presence and absence). -/
def restIdPath (j : Json) : Option Json :=
  match j.objGet? "data" with
  | none => none
  | some d =>
    match d.objGet? "user" with
    | none => none
    | some u => u.objGet? "rest_id"

/-- Decimal value of a digit string (how the claims read a numeric key). -/
def foldDigits (a : Nat) (l : List Char) : Nat :=
  l.foldl (fun a c => a * 10 + (c.toNat - 48)) a

/-- The numeric id named by a key. -/
def keyNum (k : String) : Nat := foldDigits 0 k.toList

/-- The `full_text` field of a tweet object (defaulting to `""`;
the claims only apply it where the field is known present). -/
def fullTextStr (v : Json) : String :=
  match v.objGet? "full_text" with
  | some (.str s) => s
  | _ => ""

/-- The posts of a tweets object, read off as (numeric id, full_text)
pairs — the spec's view of the data. -/
def decodedPosts (fields : List (String × Json)) : List (Nat × String) :=
  fields.map (fun kv => (keyNum kv.1, fullTextStr kv.2))

/-- Insertion into a list of posts sorted by descending id. -/
def insertPairDesc (p : Nat × String) : List (Nat × String) → List (Nat × String)
  | [] => [p]
  | q :: qs => if q.1 ≤ p.1 then p :: q :: qs else q :: insertPairDesc p qs

/-- Posts sorted by strictly descending numeric id (spec side). -/
def sortPairsDesc : List (Nat × String) → List (Nat × String)
  | [] => []
  | p :: ps => insertPairDesc p (sortPairsDesc ps)

/-- The result the spec describes: posts in descending id order,
truncated to `count`, each `full_text` flattened to one line. -/
def specFetch (fields : List (String × Json)) (count : Nat) : List String :=
  ((sortPairsDesc (decodedPosts fields)).take count).map (fun p => normalizeText p.2)

/-- Construction was attempted with at least one failing token accessor. -/
def tokenFailure (tv : TwitterValues) : Prop :=
  (∃ m, tv.guest_token = .error (.failedToGetTwitterValue m)) ∨
  (∃ m, tv.bearer_token = .error (.failedToGetTwitterValue m)) ∨
  (∃ m, tv.query_id = .error (.failedToGetTwitterValue m))

/-- The tweets object of the spec's worked example: three posts with
ids 103, 101, 102, the first with an embedded line break. -/
def exFields : List (String × Json) :=
  [("103", Json.obj [("full_text", Json.str "a\nb")]),
   ("101", Json.obj [("full_text", Json.str "c")]),
   ("102", Json.obj [("full_text", Json.str "d")])]

/-- A full timeline response around `exFields`. -/
def exTimeline : Json :=
  Json.obj [("globalObjects", Json.obj [("tweets", Json.obj exFields)])]

/-- A lookup response that contains the `data.user.rest_id` path. -/
def exLookup : Json :=
  Json.obj [("data", Json.obj [("user", Json.obj [("rest_id", Json.str "4242")])])]

/-- A token provider whose three accessors all succeed. -/
def tvGood : TwitterValues :=
  { guest_token := .ok "gt0", bearer_token := .ok "btok0", query_id := .ok "qid0" }

/-- A token provider whose guest-token accessor fails. -/
def tvBadGuest : TwitterValues :=
  { guest_token := .error (.failedToGetTwitterValue "guest token not found"),
    bearer_token := .ok "btok0", query_id := .ok "qid0" }

/-- The client `initClient "nasa" tvGood (.ok exLookup)` constructs. -/
def exClient : Client :=
  { user := "nasa", gt := "gt0", bearer_token := "btok0", query_id := "qid0",
    headers := [("x-guest-token", "gt0"), ("authorization", "Bearer btok0"),
                ("content-type", "application/json")],
    user_id := Json.str "4242" }

/-- A lookup response in which `data.user.rest_id` is absent but `data`
is not an object: subscripting `None` raises `TypeError`. -/
def c3cex : Json := Json.obj [("data", Json.null)]

/-- A timeline response in which `globalObjects.tweets` is absent but
`globalObjects` is not an object: subscripting `None` raises `TypeError`. -/
def c4cex : Json := Json.obj [("globalObjects", Json.null)]

/-- A timeline response whose path is entirely absent, via a missing
key on an object — the case the `except KeyError` handler does catch. -/
def c4wit : Json := Json.obj []

/-- A timeline response with a tweets key that does not parse as an
integer: `int('abc')` raises `ValueError`. -/
def c6cex : Json :=
  Json.obj [("globalObjects", Json.obj
    [("tweets", Json.obj [("abc", Json.obj [("full_text", Json.str "x")])])])]

/-- A timeline response whose single tweet object lacks `full_text`:
the lookup raises `KeyError`, which the handler does catch. -/
def c6wit : Json :=
  Json.obj [("globalObjects", Json.obj
    [("tweets", Json.obj [("7", Json.obj [])])])]

lemma objGet?_iff_getItem (j : Json) (k : String) (v : Json) :
    j.objGet? k = some v ↔ j.getItem k = .ok v := by
  cases j <;> simp [Json.objGet?, Json.getItem]
  case obj fields =>
    cases h : fields.find? (fun kv => kv.1 == k) with
    | none => simp
    | some kv =>
      simp
      constructor
      · rintro ⟨a, rfl⟩
        rfl
      · intro hv
        exact ⟨kv.1, Prod.ext rfl hv⟩

lemma restIdLookup_of_path {j v : Json} (h : restIdPath j = some v) :
    restIdLookup j = .ok v := by
  unfold restIdPath at h
  cases hd : j.objGet? "data" with
  | none => simp [hd] at h
  | some d =>
    simp only [hd] at h
    cases hu : d.objGet? "user" with
    | none => simp [hu] at h
    | some u =>
      simp only [hu] at h
      unfold restIdLookup
      simp only [(objGet?_iff_getItem j "data" d).1 hd,
        (objGet?_iff_getItem d "user" u).1 hu]
      exact (objGet?_iff_getItem u "rest_id" v).1 h

lemma restIdPath_of_lookup {j v : Json} (h : restIdLookup j = .ok v) :
    restIdPath j = some v := by
  unfold restIdLookup at h
  cases hd : j.getItem "data" with
  | error e => simp [hd] at h
  | ok d =>
    simp only [hd] at h
    cases hu : d.getItem "user" with
    | error e => simp [hu] at h
    | ok u =>
      simp only [hu] at h
      unfold restIdPath
      simp only [(objGet?_iff_getItem j "data" d).2 hd,
        (objGet?_iff_getItem d "user" u).2 hu]
      exact (objGet?_iff_getItem u "rest_id" v).2 h

lemma tweetsLookup_of_path {j t : Json} (h : tweetsPath j = some t) :
    tweetsLookup j = .ok t := by
  unfold tweetsPath at h
  cases hg : j.objGet? "globalObjects" with
  | none => simp [hg] at h
  | some go =>
    simp only [hg] at h
    unfold tweetsLookup
    simp only [(objGet?_iff_getItem j "globalObjects" go).1 hg]
    exact (objGet?_iff_getItem go "tweets" t).1 h

lemma tweetsPath_of_lookup {j t : Json} (h : tweetsLookup j = .ok t) :
    tweetsPath j = some t := by
  unfold tweetsLookup at h
  cases hg : j.getItem "globalObjects" with
  | error e => simp [hg] at h
  | ok go =>
    simp only [hg] at h
    unfold tweetsPath
    simp only [(objGet?_iff_getItem j "globalObjects" go).2 hg]
    exact (objGet?_iff_getItem go "tweets" t).2 h

/-- C10: `get_tweets` never mutates the client's state: after any call
(successful or failing), the fields `user`, `gt`, `bearer_token`,
`query_id`, `headers` and `user_id` hold exactly the values they held
after construction. -/
theorem c10_fetch_preserves_state (self : Client) (r : Except String Json) (count : Int) :
    (fetchTweets self r count).1 = self ∧
    (fetchTweets self r count).1.user = self.user ∧
    (fetchTweets self r count).1.gt = self.gt ∧
    (fetchTweets self r count).1.bearer_token = self.bearer_token ∧
    (fetchTweets self r count).1.query_id = self.query_id ∧
    (fetchTweets self r count).1.headers = self.headers ∧
    (fetchTweets self r count).1.user_id = self.user_id := by
  cases r <;> simp [fetchTweets]

/-- C2: if any of the three token accessors fails, construction fails
with a `FailedToGetTweetsException` wrapping the provider's failure,
and no client (hence no headers and no internal id) is observable. -/
theorem c2_token_failure_aborts_construction (u : String) (tv : TwitterValues)
    (r : Except String Json) (m : String) :
    (tv.guest_token = .error (.failedToGetTwitterValue m) →
      initClient u tv r = .error (.failedToGetTweets m)) ∧
    ((∃ g, tv.guest_token = .ok g) →
      tv.bearer_token = .error (.failedToGetTwitterValue m) →
      initClient u tv r = .error (.failedToGetTweets m)) ∧
    ((∃ g, tv.guest_token = .ok g) → (∃ b, tv.bearer_token = .ok b) →
      tv.query_id = .error (.failedToGetTwitterValue m) →
      initClient u tv r = .error (.failedToGetTweets m)) ∧
    (tokenFailure tv → ∀ c, initClient u tv r ≠ .ok c) := by
  refine ⟨?_, ?_, ?_, ?_⟩
  · intro h
    simp [initClient, get_twitter_values, h]
  · rintro ⟨g, hg⟩ h
    simp [initClient, get_twitter_values, hg, h]
  · rintro ⟨g, hg⟩ ⟨b, hb⟩ h
    simp [initClient, get_twitter_values, hg, hb, h]
  · intro hfail c
    rcases hfail with ⟨m1, h1⟩ | ⟨m1, h1⟩ | ⟨m1, h1⟩
    · simp [initClient, get_twitter_values, h1]
    · cases hg : tv.guest_token with
      | error e =>
        cases e with
        | failedToGetTwitterValue m2 => simp [initClient, get_twitter_values, hg]
      | ok g => simp [initClient, get_twitter_values, hg, h1]
    · cases hg : tv.guest_token with
      | error e =>
        cases e with
        | failedToGetTwitterValue m2 => simp [initClient, get_twitter_values, hg]
      | ok g =>
        cases hb : tv.bearer_token with
        | error e =>
          cases e with
          | failedToGetTwitterValue m2 => simp [initClient, get_twitter_values, hg, hb]
        | ok b => simp [initClient, get_twitter_values, hg, hb, h1]

theorem c2_witness :
    tvBadGuest.guest_token = .error (.failedToGetTwitterValue "guest token not found") ∧
    initClient "nasa" tvBadGuest (.ok exLookup) =
      .error (.failedToGetTweets "guest token not found") :=
  ⟨rfl, (c2_token_failure_aborts_construction "nasa" tvBadGuest (.ok exLookup)
    "guest token not found").1 rfl⟩

/-- C9: on a successful construction from valid credentials, the
assembled headers are exactly the guest token under `x-guest-token`,
`Bearer ` prefixed to the bearer token under `authorization`, and the
fixed JSON content type. -/
theorem c9_headers_assembly (u gt b q : String) (tv : TwitterValues)
    (r : Except String Json) (c : Client)
    (hg : tv.guest_token = .ok gt) (hb : tv.bearer_token = .ok b)
    (hq : tv.query_id = .ok q) (h : initClient u tv r = .ok c) :
    c.headers = [("x-guest-token", gt), ("authorization", "Bearer " ++ b),
                 ("content-type", "application/json")] ∧
    c.gt = gt ∧ c.bearer_token = b ∧ c.query_id = q := by
  unfold initClient get_twitter_values at h
  simp only [hg, hb, hq] at h
  cases r with
  | error e => simp at h
  | ok j =>
    cases hj : get_user_id j with
    | error e => simp [hj] at h
    | ok uid =>
      simp only [hj, Except.ok.injEq] at h
      subst h
      exact ⟨rfl, rfl, rfl, rfl⟩

theorem c9_witness :
    tvGood.guest_token = .ok "gt0" ∧ tvGood.bearer_token = .ok "btok0" ∧
    tvGood.query_id = .ok "qid0" ∧
    initClient "nasa" tvGood (.ok exLookup) = .ok exClient ∧
    (exClient.headers = [("x-guest-token", "gt0"), ("authorization", "Bearer " ++ "btok0"),
       ("content-type", "application/json")] ∧
     exClient.gt = "gt0" ∧ exClient.bearer_token = "btok0" ∧ exClient.query_id = "qid0") :=
  ⟨rfl, rfl, rfl, rfl,
   c9_headers_assembly "nasa" "gt0" "btok0" "qid0" tvGood (.ok exLookup) exClient
     rfl rfl rfl rfl⟩

lemma exceptMapM_ok_forall {α β : Type} {g : α → Except PyExc β} {l : List α}
    {ys : List β} (h : exceptMapM g l = .ok ys) : ∀ x ∈ l, ∃ y, g x = .ok y := by
  induction l generalizing ys with
  | nil => simp
  | cons x xs ih =>
    intro a ha
    unfold exceptMapM at h
    cases hx : g x with
    | error e => simp [hx] at h
    | ok y =>
      simp only [hx] at h
      cases hxs : exceptMapM g xs with
      | error e => simp [hxs] at h
      | ok ys2 =>
        rcases List.mem_cons.1 ha with rfl | ha2
        · exact ⟨y, hx⟩
        · exact ih hxs a ha2

/-- C3 counterexample: in the lookup response `{"data": null}` the
`data.user.rest_id` path is absent, yet resolution does not fail with
the DataShapeMismatch domain error — subscripting `None` raises an
unhandled `TypeError` that the `except KeyError` handler lets through. -/
theorem c3_counterexample :
    restIdPath c3cex = none ∧
    get_user_id c3cex = .error (.uncaught .typeError) ∧
    resultDomainError (get_user_id c3cex) = false :=
  ⟨rfl, rfl, rfl⟩

/-- C3 (amended): if `data.user.rest_id` is present, resolution returns
exactly the value at that path; if it is absent, resolution always
fails, and it fails with the DataShapeMismatch domain error exactly
when the failed lookup raised `KeyError` (every traversed value an
object) rather than `TypeError`. -/
theorem c3_rest_id_resolution (j : Json) :
    (∀ v, restIdPath j = some v → get_user_id j = .ok v) ∧
    (restIdPath j = none → ∃ e, get_user_id j = .error e) ∧
    (∀ k, restIdLookup j = .error (.keyError k) →
      get_user_id j = .error (.failedToGetTweets
        "Failed to get the user id, could not find user rest_id in GraphQL response")) := by
  refine ⟨?_, ?_, ?_⟩
  · intro v hv
    simp [get_user_id, restIdLookup_of_path hv]
  · intro hnone
    cases hlk : restIdLookup j with
    | ok v => rw [restIdPath_of_lookup hlk] at hnone; cases hnone
    | error e =>
      cases e with
      | keyError k =>
        exact ⟨ApiErr.failedToGetTweets
          "Failed to get the user id, could not find user rest_id in GraphQL response",
          by simp [get_user_id, hlk]⟩
      | typeError => exact ⟨.uncaught .typeError, by simp [get_user_id, hlk]⟩
      | valueError => exact ⟨.uncaught .valueError, by simp [get_user_id, hlk]⟩
      | attributeError => exact ⟨.uncaught .attributeError, by simp [get_user_id, hlk]⟩
  · intro k hk
    simp [get_user_id, hk]

theorem c3_witness :
    restIdPath exLookup = some (Json.str "4242") ∧
    get_user_id exLookup = .ok (Json.str "4242") :=
  ⟨rfl, (c3_rest_id_resolution exLookup).1 (Json.str "4242") rfl⟩

/-- C4 counterexample: in the timeline response
`{"globalObjects": null}` the `globalObjects.tweets` path is absent,
yet the fetch does not fail with the DataShapeMismatch domain error —
subscripting `None` raises an unhandled `TypeError`. -/
theorem c4_counterexample :
    tweetsPath c4cex = none ∧
    get_tweets c4cex 10 = .error (.uncaught .typeError) ∧
    resultDomainError (get_tweets c4cex 10) = false :=
  ⟨rfl, rfl, rfl⟩

/-- C4 (amended): for every timeline response in which the
`globalObjects.tweets` path is absent, `get_tweets` fails — never
returning any list, partial or otherwise — and it fails with the
DataShapeMismatch domain error exactly when the failed lookup raised
`KeyError` (a key missing from an object) rather than `TypeError`. -/
theorem c4_missing_tweets_path_fails (j : Json) (count : Int)
    (h : tweetsPath j = none) :
    (∃ e, get_tweets j count = .error e) ∧
    (∀ ts, get_tweets j count ≠ .ok ts) ∧
    (∀ k, tweetsLookup j = .error (.keyError k) →
      get_tweets j count = .error (.failedToGetTweets "Failed to get tweets")) := by
  have hlk : ∃ e, tweetsLookup j = .error e := by
    cases hlk : tweetsLookup j with
    | ok t => rw [tweetsPath_of_lookup hlk] at h; cases h
    | error e => exact ⟨e, rfl⟩
  rcases hlk with ⟨e, hlk⟩
  have hpipe : tweetsPipeline j count = .error e := by
    simp [tweetsPipeline, hlk]
  refine ⟨?_, ?_, ?_⟩
  · cases e with
    | keyError k =>
      exact ⟨.failedToGetTweets "Failed to get tweets", by simp [get_tweets, hpipe]⟩
    | typeError => exact ⟨.uncaught .typeError, by simp [get_tweets, hpipe]⟩
    | valueError => exact ⟨.uncaught .valueError, by simp [get_tweets, hpipe]⟩
    | attributeError => exact ⟨.uncaught .attributeError, by simp [get_tweets, hpipe]⟩
  · intro ts hts
    rw [get_tweets, hpipe] at hts
    cases e <;> simp at hts
  · intro k hk
    have hpipe2 : tweetsPipeline j count = .error (.keyError k) := by
      simp [tweetsPipeline, hk]
    simp [get_tweets, hpipe2]

theorem c4_witness :
    tweetsPath c4wit = none ∧
    tweetsLookup c4wit = .error (.keyError "globalObjects") ∧
    get_tweets c4wit 10 = .error (.failedToGetTweets "Failed to get tweets") :=
  ⟨rfl, rfl, (c4_missing_tweets_path_fails c4wit 10 rfl).2.2 "globalObjects" rfl⟩

/-- C6 counterexample: a tweets key that does not parse as an integer
(`"abc"`) makes `get_tweets` raise an unwrapped `ValueError` — not the
fetch operation's domain error, contradicting the claim that every
lower-level failure during `get_tweets` is wrapped. -/
theorem c6_counterexample :
    tweetsPath c6cex =
      some (Json.obj [("abc", Json.obj [("full_text", Json.str "x")])]) ∧
    get_tweets c6cex 1 = .error (.uncaught .valueError) ∧
    resultDomainError (get_tweets c6cex 1) = false :=
  ⟨rfl, rfl, rfl⟩

/-- C6 (amended): during `get_tweets`, failures raised as `KeyError`
are wrapped into the fetch operation's domain error and a raw
`KeyError` never reaches the caller; but any other raised exception —
in particular the `ValueError` from parsing a tweets key as an
integer — surfaces unwrapped. -/
theorem c6_error_wrapping (j : Json) (count : Int) :
    (∀ k, tweetsPipeline j count = .error (.keyError k) →
      get_tweets j count = .error (.failedToGetTweets "Failed to get tweets")) ∧
    (∀ e, tweetsPipeline j count = .error e → (∀ k, e ≠ .keyError k) →
      get_tweets j count = .error (.uncaught e)) ∧
    (∀ k, get_tweets j count ≠ .error (.uncaught (.keyError k))) := by
  refine ⟨?_, ?_, ?_⟩
  · intro k hk
    simp [get_tweets, hk]
  · intro e he hne
    cases e with
    | keyError k => exact absurd rfl (hne k)
    | typeError => simp [get_tweets, he]
    | valueError => simp [get_tweets, he]
    | attributeError => simp [get_tweets, he]
  · intro k hk
    rw [get_tweets] at hk
    cases hp : tweetsPipeline j count with
    | ok ts => simp [hp] at hk
    | error e =>
      simp only [hp] at hk
      cases e <;> simp at hk

theorem c6_witness :
    tweetsPipeline c6wit 1 = .error (.keyError "full_text") ∧
    get_tweets c6wit 1 = .error (.failedToGetTweets "Failed to get tweets") :=
  ⟨rfl, (c6_error_wrapping c6wit 1).1 "full_text" rfl⟩

/-- C7: a successful `get_tweets` call implies every key of the tweets
object parsed as an integer — no post with an unparsable raw id is ever
silently emitted, because an unparsable key aborts the whole call. -/
theorem c7_success_all_keys_parsed (j : Json) (count : Int) (ts : List String)
    (h : get_tweets j count = .ok ts) :
    ∃ fields, tweetsPath j = some (Json.obj fields) ∧
      ∀ kv ∈ fields, (pyInt? kv.1).isSome = true := by
  rw [get_tweets] at h
  cases hp : tweetsPipeline j count with
  | error e => simp [hp] at h; cases e <;> simp at h
  | ok ts2 =>
    rw [tweetsPipeline] at hp
    cases hlk : tweetsLookup j with
    | error e => simp [hlk] at hp
    | ok tj =>
      simp only [hlk] at hp
      cases tj with
      | obj fields =>
        refine ⟨fields, tweetsPath_of_lookup hlk, ?_⟩
        simp only [Json.keysList] at hp
        cases hm : exceptMapM intOrValueError (fields.map Prod.fst) with
        | error e => simp [hm] at hp
        | ok ids =>
          intro kv hkv
          rcases exceptMapM_ok_forall hm kv.1 (List.mem_map.2 ⟨kv, hkv, rfl⟩)
            with ⟨y, hy⟩
          unfold intOrValueError at hy
          cases hint : pyInt? kv.1 with
          | none => simp [hint] at hy
          | some i => simp
      | null => simp [Json.keysList] at hp
      | bool b => simp [Json.keysList] at hp
      | num n => simp [Json.keysList] at hp
      | str s => simp [Json.keysList] at hp
      | arr xs => simp [Json.keysList] at hp

theorem c7_witness :
    get_tweets exTimeline 2 = .ok ["a b", "d"] ∧
    (∃ fields, tweetsPath exTimeline = some (Json.obj fields) ∧
      ∀ kv ∈ fields, (pyInt? kv.1).isSome = true) :=
  ⟨rfl, c7_success_all_keys_parsed exTimeline 2 ["a b", "d"] rfl⟩

lemma splitlinesAux_nil (acc : List Char) :
    splitlinesAux [] acc = if acc.isEmpty then [] else [acc.reverse] := rfl

lemma splitlinesAux_single (c : Char) (acc : List Char) :
    splitlinesAux [c] acc =
      if isLineBreak c then [acc.reverse] else splitlinesAux [] (c :: acc) := rfl

lemma splitlinesAux_pair (c d : Char) (rest2 acc : List Char) :
    splitlinesAux (c :: d :: rest2) acc =
      if isLineBreak c then
        (if c = '\r' && d = '\n' then acc.reverse :: splitlinesAux rest2 []
         else acc.reverse :: splitlinesAux (d :: rest2) [])
      else splitlinesAux (d :: rest2) (c :: acc) := rfl

lemma splitlinesAux_no_break :
    ∀ (N : Nat) (l acc : List Char), l.length ≤ N →
      (∀ c ∈ acc, isLineBreak c = false) →
      ∀ seg ∈ splitlinesAux l acc, ∀ c ∈ seg, isLineBreak c = false := by
  intro N
  induction N with
  | zero =>
    intro l acc hlen hacc seg hseg c hc
    have hl : l = [] := List.length_eq_zero.1 (Nat.le_zero.1 hlen)
    subst hl
    rw [splitlinesAux_nil] at hseg
    by_cases he : acc.isEmpty
    · simp [he] at hseg
    · simp [he] at hseg
      subst hseg
      exact hacc c (List.mem_reverse.1 hc)
  | succ N ih =>
    intro l acc hlen hacc seg hseg c hc
    cases l with
    | nil =>
      rw [splitlinesAux_nil] at hseg
      by_cases he : acc.isEmpty
      · simp [he] at hseg
      · simp [he] at hseg
        subst hseg
        exact hacc c (List.mem_reverse.1 hc)
    | cons a rest =>
      cases rest with
      | nil =>
        rw [splitlinesAux_single] at hseg
        by_cases hbr : isLineBreak a
        · simp [hbr] at hseg
          subst hseg
          exact hacc c (List.mem_reverse.1 hc)
        · simp only [hbr, if_false] at hseg
          refine ih [] (a :: acc) (by simp) ?_ seg hseg c hc
          intro b hb
          rcases List.mem_cons.1 hb with rfl | hb2
          · simpa using hbr
          · exact hacc b hb2
      | cons d rest2 =>
        rw [splitlinesAux_pair] at hseg
        by_cases hbr : isLineBreak a
        · simp only [hbr, if_true] at hseg
          split at hseg
          · rcases List.mem_cons.1 hseg with rfl | hseg2
            · exact hacc c (List.mem_reverse.1 hc)
            · exact ih rest2 [] (by simp at hlen; omega) (by simp) seg hseg2 c hc
          · rcases List.mem_cons.1 hseg with rfl | hseg2
            · exact hacc c (List.mem_reverse.1 hc)
            · exact ih (d :: rest2) [] (by simp at hlen ⊢; omega) (by simp) seg hseg2 c hc
        · simp only [hbr, if_false] at hseg
          refine ih (d :: rest2) (a :: acc) (by simp at hlen ⊢; omega) ?_ seg hseg c hc
          intro b hb
          rcases List.mem_cons.1 hb with rfl | hb2
          · simpa using hbr
          · exact hacc b hb2

lemma joinSpace_no_break (segs : List (List Char))
    (h : ∀ seg ∈ segs, ∀ c ∈ seg, isLineBreak c = false) :
    ∀ c ∈ joinSpace segs, isLineBreak c = false := by
  induction segs with
  | nil => simp [joinSpace]
  | cons x tail ih =>
    cases tail with
    | nil =>
      intro c hc
      exact h x (by simp) c (by simpa [joinSpace] using hc)
    | cons y ys =>
      intro c hc
      rw [joinSpace] at hc
      rcases List.mem_append.1 hc with hx | hrest
      · exact h x (by simp) c hx
      · rcases List.mem_cons.1 hrest with rfl | hj
        · decide
        · exact ih (fun seg hs => h seg (by simp [hs])) c hj

/-- C8: the normalization `' '.join(text.splitlines())` produces a
string containing no line-break character, for every input containing
one or more line breaks. -/
theorem c8_normalized_no_line_breaks (s : String)
    (h : ∃ c ∈ s.toList, isLineBreak c = true) :
    ∀ c ∈ (normalizeText s).toList, isLineBreak c = false := by
  intro c hc
  have h1 := splitlinesAux_no_break s.toList.length s.toList [] le_rfl (by simp)
  exact joinSpace_no_break (splitlines s) h1 c hc

theorem c8_witness :
    (∃ c ∈ ("a\nb").toList, isLineBreak c = true) ∧
    (∀ c ∈ (normalizeText "a\nb").toList, isLineBreak c = false) :=
  ⟨by decide, c8_normalized_no_line_breaks "a\nb" (by decide)⟩

lemma digitChar_toNat (d : Nat) (h : d < 10) : (digitChar d).toNat = 48 + d := by
  interval_cases d <;> rfl

lemma digitChar_isDigit (d : Nat) (h : d < 10) : (digitChar d).isDigit = true := by
  interval_cases d <;> rfl

lemma digit_not_pyWs (c : Char) (h : c.isDigit = true) : pyWs c = false := by
  cases hpw : pyWs c with
  | false => rfl
  | true =>
    exfalso
    simp only [pyWs, Bool.or_eq_true, decide_eq_true_eq] at hpw
    rcases hpw with ((((rfl | rfl) | rfl) | rfl) | rfl) | rfl <;>
      exact absurd h (by decide)

lemma digit_ne_sign (c : Char) (h : c.isDigit = true) :
    ¬c = '+' ∧ ¬c = '-' := by
  constructor <;> rintro rfl <;> exact absurd h (by decide)

lemma natDigitsGo_append (fuel : Nat) :
    ∀ (n : Nat) (acc : List Char),
      natDigitsGo fuel n acc = natDigitsGo fuel n [] ++ acc := by
  induction fuel with
  | zero => intro n acc; simp [natDigitsGo]
  | succ fuel ih =>
    intro n acc
    rw [natDigitsGo, natDigitsGo]
    by_cases h : n < 10
    · simp [h]
    · simp only [h, if_false]
      rw [ih (n / 10) (digitChar (n % 10) :: acc), ih (n / 10) [digitChar (n % 10)]]
      simp

lemma natDigitsGo_digits (fuel : Nat) :
    ∀ n : Nat, ∀ c ∈ natDigitsGo fuel n [], c.isDigit = true := by
  induction fuel with
  | zero => intro n c hc; simp [natDigitsGo] at hc
  | succ fuel ih =>
    intro n c hc
    rw [natDigitsGo] at hc
    by_cases h : n < 10
    · simp only [h, if_true] at hc
      simp at hc
      subst hc
      exact digitChar_isDigit n h
    · simp only [h, if_false] at hc
      rw [natDigitsGo_append] at hc
      rcases List.mem_append.1 hc with h1 | h2
      · exact ih (n / 10) c h1
      · simp at h2
        subst h2
        exact digitChar_isDigit _ (Nat.mod_lt n (by norm_num))

lemma natDigitsGo_ne_nil (fuel n : Nat) : natDigitsGo (fuel + 1) n [] ≠ [] := by
  rw [natDigitsGo]
  by_cases h : n < 10
  · simp [h]
  · simp only [h, if_false]
    rw [natDigitsGo_append]
    simp

lemma foldDigits_append (a : Nat) (l1 l2 : List Char) :
    foldDigits a (l1 ++ l2) = foldDigits (foldDigits a l1) l2 := by
  simp [foldDigits, List.foldl_append]

lemma foldDigits_natDigitsGo (fuel : Nat) :
    ∀ n : Nat, n < 10 ^ fuel → foldDigits 0 (natDigitsGo fuel n []) = n := by
  induction fuel with
  | zero =>
    intro n h
    simp only [pow_zero, Nat.lt_one_iff] at h
    subst h
    rfl
  | succ fuel ih =>
    intro n h
    rw [natDigitsGo]
    by_cases h10 : n < 10
    · simp only [h10, if_true]
      simp [foldDigits, digitChar_toNat n h10]
    · simp only [h10, if_false]
      rw [natDigitsGo_append, foldDigits_append]
      have hdiv : n / 10 < 10 ^ fuel := by
        rw [Nat.div_lt_iff_lt_mul (by norm_num : 0 < 10)]
        rw [pow_succ] at h
        exact h
      rw [ih _ hdiv]
      simp [foldDigits, digitChar_toNat _ (Nat.mod_lt n (by norm_num))]
      omega

lemma n_lt_ten_pow (n : Nat) : n < 10 ^ (n + 1) :=
  lt_of_lt_of_le (Nat.lt_two_pow n)
    (le_trans (Nat.pow_le_pow_left (by norm_num) n)
      (Nat.pow_le_pow_right (by norm_num) (Nat.le_succ n)))

lemma natRepr_toList (n : Nat) : (natRepr n).toList = natDigitsGo (n + 1) n [] := rfl

lemma foldDigits_natRepr (n : Nat) : foldDigits 0 (natRepr n).toList = n := by
  rw [natRepr_toList]
  exact foldDigits_natDigitsGo (n + 1) n (n_lt_ten_pow n)

lemma keyNum_natRepr (n : Nat) : keyNum (natRepr n) = n :=
  foldDigits_natRepr n

lemma natRepr_digits (n : Nat) : ∀ c ∈ (natRepr n).toList, c.isDigit = true := by
  rw [natRepr_toList]
  exact natDigitsGo_digits (n + 1) n

lemma natRepr_toList_ne_nil (n : Nat) : (natRepr n).toList ≠ [] := by
  rw [natRepr_toList]
  exact natDigitsGo_ne_nil n n

lemma dropWhile_pyWs_of_digits (l : List Char) (h : ∀ c ∈ l, c.isDigit = true) :
    l.dropWhile pyWs = l := by
  cases l with
  | nil => rfl
  | cons c rest =>
    rw [List.dropWhile_cons]
    simp [digit_not_pyWs c (h c (by simp))]

lemma pyStrip_digits (l : List Char) (h : ∀ c ∈ l, c.isDigit = true) :
    pyStrip l = l := by
  unfold pyStrip
  rw [dropWhile_pyWs_of_digits l h]
  rw [dropWhile_pyWs_of_digits l.reverse (fun c hc => h c (List.mem_reverse.1 hc))]
  exact List.reverse_reverse l

lemma pyIntGo_digits (l : List Char) :
    ∀ a : Nat, (∀ c ∈ l, c.isDigit = true) →
      pyIntGo false l a = some (foldDigits a l) := by
  induction l with
  | nil => intro a h; rfl
  | cons c rest ih =>
    intro a h
    have hc := h c (by simp)
    rw [pyIntGo]
    simp only [hc, if_true]
    rw [ih _ (fun d hd => h d (by simp [hd]))]
    rfl

lemma pyIntDigits_digits (l : List Char) (hne : l ≠ [])
    (h : ∀ c ∈ l, c.isDigit = true) :
    pyIntDigits l = some (foldDigits 0 l) := by
  cases l with
  | nil => cases hne rfl
  | cons c rest =>
    have hc := h c (by simp)
    rw [pyIntDigits]
    simp only [hc, if_true]
    rw [pyIntGo_digits rest (c.toNat - 48) (fun d hd => h d (by simp [hd]))]
    simp [foldDigits]

lemma pyInt?_natRepr (n : Nat) : pyInt? (natRepr n) = some (Int.ofNat n) := by
  rw [pyInt?]
  rw [pyStrip_digits _ (natRepr_digits n)]
  cases hl : (natRepr n).toList with
  | nil => exact absurd hl (natRepr_toList_ne_nil n)
  | cons c rest =>
    have hc : c.isDigit = true := by
      apply natRepr_digits n
      rw [hl]
      simp
    rcases digit_ne_sign c hc with ⟨hp, hm⟩
    simp only [hp, hm, if_false]
    rw [pyIntDigits_digits (c :: rest) (by simp) (by rw [← hl]; exact natRepr_digits n)]
    rw [← hl, foldDigits_natRepr]
    rfl

lemma natRepr_inj {m n : Nat} (h : natRepr m = natRepr n) : m = n := by
  have hm := foldDigits_natRepr m
  rw [h, foldDigits_natRepr] at hm
  exact hm.symm

lemma pyStr_ofNat (n : Nat) : pyStr (Int.ofNat n) = natRepr n := rfl

lemma insertPairDesc_perm (p : Nat × String) (l : List (Nat × String)) :
    List.Perm (insertPairDesc p l) (p :: l) := by
  induction l with
  | nil => exact List.Perm.refl _
  | cons q qs ih =>
    rw [insertPairDesc]
    by_cases h : q.1 ≤ p.1
    · rw [if_pos h]
    · rw [if_neg h]
      exact (List.Perm.cons q ih).trans (List.Perm.swap p q qs)

lemma sortPairsDesc_perm (l : List (Nat × String)) :
    List.Perm (sortPairsDesc l) l := by
  induction l with
  | nil => exact List.Perm.refl _
  | cons p ps ih =>
    rw [sortPairsDesc]
    exact (insertPairDesc_perm p (sortPairsDesc ps)).trans (List.Perm.cons p ih)

lemma insertPairDesc_sorted (p : Nat × String) (l : List (Nat × String))
    (h : l.Pairwise (fun a b => b.1 ≤ a.1)) :
    (insertPairDesc p l).Pairwise (fun a b => b.1 ≤ a.1) := by
  induction l with
  | nil => simp [insertPairDesc]
  | cons q qs ih =>
    rw [insertPairDesc]
    rcases List.pairwise_cons.1 h with ⟨hq_qs, hqs⟩
    by_cases hq : q.1 ≤ p.1
    · rw [if_pos hq]
      refine List.pairwise_cons.2 ⟨?_, h⟩
      intro b hb
      rcases List.mem_cons.1 hb with rfl | hb2
      · exact hq
      · exact le_trans (hq_qs b hb2) hq
    · rw [if_neg hq]
      refine List.pairwise_cons.2 ⟨?_, ih hqs⟩
      intro b hb
      have hmem : b ∈ p :: qs := (insertPairDesc_perm p qs).mem_iff.1 hb
      rcases List.mem_cons.1 hmem with rfl | hb2
      · omega
      · exact hq_qs b hb2

lemma sortPairsDesc_sorted (l : List (Nat × String)) :
    (sortPairsDesc l).Pairwise (fun a b => b.1 ≤ a.1) := by
  induction l with
  | nil => simp [sortPairsDesc]
  | cons p ps ih =>
    rw [sortPairsDesc]
    exact insertPairDesc_sorted p (sortPairsDesc ps) ih

lemma ofNat_le_iff (m n : Nat) : Int.ofNat m ≤ Int.ofNat n ↔ m ≤ n := by
  show (m : Int) ≤ (n : Int) ↔ m ≤ n
  exact Nat.cast_le

lemma ofNat_nonneg (n : Nat) : (0 : Int) ≤ Int.ofNat n := by
  show (0 : Int) ≤ (n : Int)
  exact Int.natCast_nonneg n

lemma ofNat_toNat (n : Nat) : (Int.ofNat n).toNat = n := rfl

lemma getItem_obj (fields : List (String × Json)) (k : String) :
    Json.getItem (Json.obj fields) k =
      match fields.find? (fun kv => kv.1 == k) with
      | some kv => .ok kv.2
      | none => .error (.keyError k) := rfl

lemma insertDesc_map_fst (p : Nat × String) (l : List (Nat × String)) :
    insertDesc (Int.ofNat p.1) (l.map (fun q => Int.ofNat q.1)) =
      (insertPairDesc p l).map (fun q => Int.ofNat q.1) := by
  induction l with
  | nil => rfl
  | cons q qs ih =>
    rw [List.map_cons, insertDesc, insertPairDesc]
    by_cases h : q.1 ≤ p.1
    · rw [if_pos ((ofNat_le_iff q.1 p.1).2 h), if_pos h]
      simp
    · rw [if_neg (fun hc => h ((ofNat_le_iff q.1 p.1).1 hc)), if_neg h]
      rw [List.map_cons, ih]

lemma sortDesc_map_fst (l : List (Nat × String)) :
    sortDesc (l.map (fun q => Int.ofNat q.1)) =
      (sortPairsDesc l).map (fun q => Int.ofNat q.1) := by
  induction l with
  | nil => rfl
  | cons p ps ih =>
    rw [List.map_cons, sortDesc, sortPairsDesc, ih, insertDesc_map_fst]

lemma find_eq_of_mem_nodup {fields : List (String × Json)} {kv : String × Json}
    (hnd : (fields.map Prod.fst).Nodup) (hmem : kv ∈ fields) :
    fields.find? (fun q => q.1 == kv.1) = some kv := by
  induction fields with
  | nil => cases hmem
  | cons hd rest ih =>
    rw [List.map_cons, List.nodup_cons] at hnd
    rcases List.mem_cons.1 hmem with rfl | hr
    · rw [List.find?_cons_of_pos _ (by simp)]
    · have hne : ¬hd.1 = kv.1 := by
        intro he
        exact hnd.1 (he ▸ List.mem_map.2 ⟨kv, hr, rfl⟩)
      rw [List.find?_cons_of_neg _ (by simp [hne])]
      exact ih hnd.2 hr

lemma exceptMapM_map_ok {α β γ : Type} (g : α → Except PyExc β) (f : γ → α)
    (h : γ → β) (l : List γ) (hall : ∀ p ∈ l, g (f p) = .ok (h p)) :
    exceptMapM g (l.map f) = .ok (l.map h) := by
  induction l with
  | nil => rfl
  | cons p ps ih =>
    rw [List.map_cons, exceptMapM, hall p (by simp),
      ih (fun q hq => hall q (by simp [hq])), List.map_cons]

lemma fullTextStr_eq {v : Json} {s : String}
    (hs : v.objGet? "full_text" = some (Json.str s)) : fullTextStr v = s := by
  rw [fullTextStr, hs]

/-- The central refinement: on a well-formed timeline response — the
`globalObjects.tweets` path present, every key the canonical decimal
numeral of its id, every tweet object carrying a string `full_text`,
keys distinct as in a Python dict — `get_tweets` returns exactly what
the spec describes: the normalized texts in descending id order,
truncated to `count`. -/
lemma get_tweets_eq_specFetch (j : Json) (fields : List (String × Json)) (count : Nat)
    (hpath : tweetsPath j = some (Json.obj fields))
    (hkeys : ∀ kv ∈ fields, ∃ n, kv.1 = natRepr n)
    (htext : ∀ kv ∈ fields, ∃ s, kv.2.objGet? "full_text" = some (Json.str s))
    (hnd : (fields.map Prod.fst).Nodup) :
    get_tweets j (Int.ofNat count) = .ok (specFetch fields count) := by
  have hlk := tweetsLookup_of_path hpath
  have hids : exceptMapM intOrValueError (fields.map Prod.fst) =
      .ok (fields.map (fun kv => Int.ofNat (keyNum kv.1))) := by
    apply exceptMapM_map_ok
    intro kv hkv
    rcases hkeys kv hkv with ⟨n, hn⟩
    rw [intOrValueError, hn, pyInt?_natRepr, keyNum_natRepr]
  have hmap : fields.map (fun kv => Int.ofNat (keyNum kv.1)) =
      (decodedPosts fields).map (fun q => Int.ofNat q.1) := by
    rw [decodedPosts, List.map_map]
    rfl
  have hpipe : tweetsPipeline j (Int.ofNat count) = .ok (specFetch fields count) := by
    rw [tweetsPipeline, hlk]
    simp only [Json.keysList]
    simp only [hids]
    rw [hmap, sortDesc_map_fst]
    have hslice : pySlice (Int.ofNat count)
        ((sortPairsDesc (decodedPosts fields)).map (fun q => Int.ofNat q.1)) =
        ((sortPairsDesc (decodedPosts fields)).take count).map
          (fun q => Int.ofNat q.1) := by
      rw [pySlice, if_pos (ofNat_nonneg count)]
      rw [ofNat_toNat, List.map_take]
    rw [hslice, specFetch]
    apply exceptMapM_map_ok
    intro p hp
    have hmem : p ∈ decodedPosts fields :=
      (sortPairsDesc_perm (decodedPosts fields)).mem_iff.1 (List.mem_of_mem_take hp)
    rcases List.mem_map.1 hmem with ⟨kv, hkv, hpe⟩
    rcases hkeys kv hkv with ⟨n, hn⟩
    rcases htext kv hkv with ⟨s, hs⟩
    subst hpe
    rw [fetchOne]
    have hkey : pyStr (Int.ofNat (keyNum kv.1)) = kv.1 := by
      rw [pyStr_ofNat, hn, keyNum_natRepr]
    rw [hkey, getItem_obj]
    have hfind : fields.find? (fun q => q.1 == kv.1) = some kv :=
      find_eq_of_mem_nodup hnd hkv
    simp only [hfind]
    simp only [(objGet?_iff_getItem kv.2 "full_text" (Json.str s)).1 hs]
    simp only [Json.asString]
    rw [fullTextStr_eq hs]
  rw [get_tweets, hpipe]

lemma decodedPosts_fst_nodup (fields : List (String × Json))
    (hkeys : ∀ kv ∈ fields, ∃ n, kv.1 = natRepr n)
    (hnd : (fields.map Prod.fst).Nodup) :
    ((decodedPosts fields).map Prod.fst).Nodup := by
  have hform : (decodedPosts fields).map Prod.fst = (fields.map Prod.fst).map keyNum := by
    rw [decodedPosts, List.map_map, List.map_map]
    rfl
  rw [hform]
  apply List.Nodup.map_on ?_ hnd
  intro x hx y hy hxy
  rcases List.mem_map.1 hx with ⟨kvx, hkvx, hex⟩
  rcases List.mem_map.1 hy with ⟨kvy, hkvy, hey⟩
  rcases hkeys kvx hkvx with ⟨n, hn⟩
  rcases hkeys kvy hkvy with ⟨m, hm⟩
  subst hex
  subst hey
  rw [hn, hm] at hxy
  rw [keyNum_natRepr, keyNum_natRepr] at hxy
  rw [hn, hm, hxy]

/-- C1: on a timeline response whose `globalObjects.tweets` object maps
numeric-string keys (canonical decimal numerals, distinct as dict keys
are) to objects with a string `full_text` field, and for positive
`count`, `get_tweets` returns the `full_text` values in strictly
descending numeric id order, line breaks flattened to single spaces,
truncated to the first `count` entries. -/
theorem c1_descending_normalized_truncated (j : Json)
    (fields : List (String × Json)) (count : Nat)
    (hpath : tweetsPath j = some (Json.obj fields))
    (hpost : ∀ kv ∈ fields, ∃ n s, kv.1 = natRepr n ∧
      kv.2.objGet? "full_text" = some (Json.str s))
    (hnd : (fields.map Prod.fst).Nodup)
    (hpos : 0 < count) :
    get_tweets j (Int.ofNat count) = .ok (specFetch fields count) ∧
    List.Pairwise (fun a b => b < a)
      (((sortPairsDesc (decodedPosts fields)).take count).map Prod.fst) := by
  have hkeys : ∀ kv ∈ fields, ∃ n, kv.1 = natRepr n := by
    intro kv hkv
    rcases hpost kv hkv with ⟨n, s, hn, _⟩
    exact ⟨n, hn⟩
  have htext : ∀ kv ∈ fields, ∃ s, kv.2.objGet? "full_text" = some (Json.str s) := by
    intro kv hkv
    rcases hpost kv hkv with ⟨n, s, _, hs⟩
    exact ⟨s, hs⟩
  refine ⟨get_tweets_eq_specFetch j fields count hpath hkeys htext hnd, ?_⟩
  have hperm := sortPairsDesc_perm (decodedPosts fields)
  have hsort_nodup : ((sortPairsDesc (decodedPosts fields)).map Prod.fst).Nodup :=
    ((hperm.map Prod.fst).nodup_iff).2 (decodedPosts_fst_nodup fields hkeys hnd)
  have htake_sub : List.Sublist ((sortPairsDesc (decodedPosts fields)).take count)
      (sortPairsDesc (decodedPosts fields)) := List.take_sublist count _
  have hsorted_take : ((sortPairsDesc (decodedPosts fields)).take count).Pairwise
      (fun a b => b.1 ≤ a.1) :=
    (sortPairsDesc_sorted (decodedPosts fields)).sublist htake_sub
  have hnd_take : (((sortPairsDesc (decodedPosts fields)).take count).map Prod.fst).Nodup :=
    hsort_nodup.sublist (htake_sub.map Prod.fst)
  rw [List.pairwise_map]
  have hne : ((sortPairsDesc (decodedPosts fields)).take count).Pairwise
      (fun a b => a.1 ≠ b.1) := List.pairwise_map.1 hnd_take
  exact (hsorted_take.and hne).imp
    (fun hab => lt_of_le_of_ne hab.1 (Ne.symm hab.2))

/-- C5: on a well-formed timeline response the result length is
`min count (number of posts)`: empty posts give an empty result, count
zero gives an empty result, and a count at least the number of posts
gives all posts exactly once (a permutation of the normalized texts,
no duplication, no padding). -/
theorem c5_result_length_min (j : Json) (fields : List (String × Json)) (count : Nat)
    (hpath : tweetsPath j = some (Json.obj fields))
    (hpost : ∀ kv ∈ fields, ∃ n s, kv.1 = natRepr n ∧
      kv.2.objGet? "full_text" = some (Json.str s))
    (hnd : (fields.map Prod.fst).Nodup) :
    ∃ ts, get_tweets j (Int.ofNat count) = .ok ts ∧
      ts.length = min count fields.length ∧
      (fields.length ≤ count →
        List.Perm ts ((decodedPosts fields).map (fun p => normalizeText p.2))) := by
  have hkeys : ∀ kv ∈ fields, ∃ n, kv.1 = natRepr n := by
    intro kv hkv
    rcases hpost kv hkv with ⟨n, s, hn, _⟩
    exact ⟨n, hn⟩
  have htext : ∀ kv ∈ fields, ∃ s, kv.2.objGet? "full_text" = some (Json.str s) := by
    intro kv hkv
    rcases hpost kv hkv with ⟨n, s, _, hs⟩
    exact ⟨s, hs⟩
  refine ⟨specFetch fields count,
    get_tweets_eq_specFetch j fields count hpath hkeys htext hnd, ?_, ?_⟩
  · rw [specFetch, List.length_map, List.length_take,
      (sortPairsDesc_perm (decodedPosts fields)).length_eq,
      decodedPosts, List.length_map]
  · intro hle
    rw [specFetch, List.take_of_length_le]
    · exact (sortPairsDesc_perm (decodedPosts fields)).map (fun p => normalizeText p.2)
    · rw [(sortPairsDesc_perm (decodedPosts fields)).length_eq,
        decodedPosts, List.length_map]
      exact hle

lemma exFields_post : ∀ kv ∈ exFields, ∃ n s, kv.1 = natRepr n ∧
    kv.2.objGet? "full_text" = some (Json.str s) := by
  intro kv hkv
  fin_cases hkv
  · exact ⟨103, "a\nb", rfl, rfl⟩
  · exact ⟨101, "c", rfl, rfl⟩
  · exact ⟨102, "d", rfl, rfl⟩

theorem c1_witness :
    tweetsPath exTimeline = some (Json.obj exFields) ∧ 0 < 2 ∧
    get_tweets exTimeline (Int.ofNat 2) = .ok ["a b", "d"] := by
  have h := c1_descending_normalized_truncated exTimeline exFields 2 rfl
    exFields_post (by decide) (by decide)
  exact ⟨rfl, by decide, h.1⟩

theorem c5_witness :
    ∃ ts, get_tweets exTimeline (Int.ofNat 5) = .ok ts ∧
      ts.length = min 5 exFields.length ∧
      (exFields.length ≤ 5 →
        List.Perm ts ((decodedPosts exFields).map (fun p => normalizeText p.2))) :=
  c5_result_length_min exTimeline exFields 5 rfl exFields_post (by decide)
